import Mathlib

/-!  Verification of the markdown-to-JSON resume extraction engine
(`md_to_json.py`).  Strings are modelled as lists of characters; each
concrete Python regular expression of the source is embedded as a
deterministic scanning function realising the backtracking semantics of
that particular pattern.  All recursion is structural (fuel where
needed) so every definition evaluates inside the kernel. -/

namespace MdJson

abbrev Str := List Char

/-- Python whitespace class `\s` for the ASCII range. -/
def isWs (c : Char) : Bool :=
  c = ' ' || c = '\t' || c = '\n' || c = '\r' || c = '\x0b' || c = '\x0c'

/-- Python digit class `\d` (ASCII). -/
def isDigitC (c : Char) : Bool := decide ('0' ≤ c) && decide (c ≤ '9')

def isAlphaC (c : Char) : Bool :=
  (decide ('a' ≤ c) && decide (c ≤ 'z')) || (decide ('A' ≤ c) && decide (c ≤ 'Z'))

/-- Python word class `\w` (ASCII). -/
def isWordC (c : Char) : Bool := isAlphaC c || isDigitC c || c = '_'

def toLowerC (c : Char) : Char :=
  if decide ('A' ≤ c) && decide (c ≤ 'Z') then Char.ofNat (c.toNat + 32) else c

/-- Python `str.lower` (ASCII part). -/
def lowerS (s : Str) : Str := s.map toLowerC

/-- Drop characters satisfying `p` from the end of the list. -/
def stripEnd (p : Char → Bool) (s : Str) : Str := (s.reverse.dropWhile p).reverse

/-- Python `str.strip()` (no arguments): strip whitespace on both sides. -/
def pyStrip (s : Str) : Str := stripEnd isWs (s.dropWhile isWs)

/-- Python `str.strip(cs)`: strip any of the characters of `cs` on both sides. -/
def pyStripSet (cs : Str) (s : Str) : Str :=
  stripEnd (fun c => cs.contains c) (s.dropWhile (fun c => cs.contains c))

/-- Python `str.lstrip(cs)`. -/
def pyLstripSet (cs : Str) (s : Str) : Str := s.dropWhile (fun c => cs.contains c)

/-- Python `str.rstrip()`. -/
def pyRstrip (s : Str) : Str := stripEnd isWs s

/-- Python `str.rstrip(cs)`. -/
def pyRstripSet (cs : Str) (s : Str) : Str := stripEnd (fun c => cs.contains c) s

/-- Index of the first occurrence of `pat` as a contiguous substring
(Python `str.find`, also the scan driving `str.split`). -/
def findSub (pat : Str) : Str → Option Nat
  | [] => if pat = [] then some 0 else none
  | c :: rest =>
    if pat.isPrefixOf (c :: rest) then some 0
    else (findSub pat rest).map (· + 1)

/-- Python substring test `pat in s`. -/
def containsSub (pat s : Str) : Bool := (findSub pat s).isSome

/-- Python `str.split(sep, maxsplit)` for a non-empty separator,
fuelled by the number of splits still allowed. -/
def pySplitMax (sep : Str) : Nat → Str → List Str
  | 0, s => [s]
  | n + 1, s =>
    match findSub sep s with
    | none => [s]
    | some i => s.take i :: pySplitMax sep n (s.drop (i + sep.length))

/-- Python `str.split(sep)` (unlimited).  A non-empty separator can occur
at most `s.length` times, so that much fuel is exact. -/
def pySplit (sep s : Str) : List Str := pySplitMax sep s.length s

/-- Python `'\n'.join`-style joining. -/
def joinSep (sep : Str) (parts : List Str) : Str := List.intercalate sep parts

/-- `re.sub` with a literal pattern (equivalently Python `str.replace`):
non-overlapping left-to-right replacement. -/
def replaceAllSub (pat rep s : Str) : Str := joinSep rep (pySplit pat s)

def charAt (s : Str) (i : Nat) : Option Char := s.get? i

/-- Length of the run of characters satisfying `p` starting at index `i`. -/
def runLen (p : Char → Bool) (s : Str) (i : Nat) : Nat := ((s.drop i).takeWhile p).length

/-- Match a literal at position `i`, returning the next position. -/
def matchLit (lit : Str) (s : Str) (i : Nat) : Option Nat :=
  if lit.isPrefixOf (s.drop i) then some (i + lit.length) else none

/-- Case-insensitive literal match (the literal is given lowercase). -/
def matchLitCI (lit : Str) (s : Str) (i : Nat) : Option Nat :=
  if lowerS ((s.drop i).take lit.length) = lit && lit.length ≤ (s.drop i).length
  then some (i + lit.length) else none

/-- First position `i`, scanning upward, where `f i` succeeds
(the leftmost-match rule of `re.search` / `re.finditer`). -/
def scanFirst (f : Nat → Option α) (i : Nat) : Nat → Option α
  | 0 => none
  | fuel + 1 =>
    match f i with
    | some a => some a
    | none => scanFirst f (i + 1) fuel

/-- Greedy backtracking helper: the largest `j ≤ k` such that position
`i + j` of `s` holds a character other than `'\n'` (used for `\s*` or
`\s+` followed by `(.+)` or `([^\n]+)`). -/
def backNonNl (s : Str) (i : Nat) : Nat → Option Nat
  | 0 => match charAt s i with
         | some c => if c = '\n' then none else some 0
         | none => none
  | j + 1 =>
    match charAt s (i + (j + 1)) with
    | some c => if c = '\n' then backNonNl s i j else some (j + 1)
    | none => backNonNl s i j

/-- The group captured by `\s*([^\n]+)` (or `\s*(.+)` on newline-free
input) matched at position `i`, together with the end position. -/
def wsThenLine (s : Str) (i : Nat) : Option (Str × Nat) :=
  let k := runLen isWs s i
  match backNonNl s i k with
  | none => none
  | some j =>
    let g := (s.drop (i + j)).takeWhile (· ≠ '\n')
    some (g, i + j + g.length)

/-- The group captured by `\s+([^\n]+)`: as `wsThenLine` but at least one
whitespace character must be consumed. -/
def wsPlusThenLine (s : Str) (i : Nat) : Option (Str × Nat) :=
  let k := runLen isWs s i
  match backNonNl s i k with
  | none => none
  | some j => if j = 0 then none else
    let g := (s.drop (i + j)).takeWhile (· ≠ '\n')
    some (g, i + j + g.length)

/-! ## Date Normalizer (`parse_date` / `_convert_date`) -/

/-- The month abbreviation table of `_convert_date`. -/
def month_map (m : Str) : Option Str :=
  if m = "jan".data then some "01".data
  else if m = "feb".data then some "02".data
  else if m = "mar".data then some "03".data
  else if m = "apr".data then some "04".data
  else if m = "may".data then some "05".data
  else if m = "jun".data then some "06".data
  else if m = "jul".data then some "07".data
  else if m = "aug".data then some "08".data
  else if m = "sep".data then some "09".data
  else if m = "oct".data then some "10".data
  else if m = "nov".data then some "11".data
  else if m = "dec".data then some "12".data
  else none

/-- `re.match(r'(\w+)\s+(\d{4})', s)`: a word run, mandatory whitespace,
then four digits.  The classes are disjoint, so matching is
deterministic. -/
def matchMonthYear (s : Str) : Option (Str × Str) :=
  let w := s.takeWhile isWordC
  if w.isEmpty then none
  else
    let r := s.drop w.length
    let k := (r.takeWhile isWs).length
    if k = 0 then none
    else
      let y := (r.drop k).take 4
      if y.length = 4 && y.all isDigitC then some (w, y) else none

/-- `re.match(r'(\d{4})', s)`: the first four characters are digits. -/
def year4 (s : Str) : Option Str :=
  let y := s.take 4
  if y.length = 4 && y.all isDigitC then some y else none

/-- `_convert_date`: "Month Year" (recognized three-letter month) to
`YYYY-MM`, else a leading four-digit year, else `None`. -/
def _convert_date (s0 : Str) : Option Str :=
  let s := pyStrip s0
  match matchMonthYear s with
  | some (nm, yr) =>
    match month_map ((lowerS nm).take 3) with
    | some mm => some (yr ++ '-' :: mm)
    | none => year4 s
  | none => year4 s

/-- The separator chosen by `parse_date`: the en dash if present,
otherwise the hyphen. -/
def dashSep (s : Str) : Str := if containsSub "–".data s then "–".data else "-".data

/-- The stripped parts of a date range, `[p.strip() for p in s.split(sep)]`. -/
def dateParts (s : Str) : List Str := (pySplit (dashSep s) s).map pyStrip

/-- `parse_date`: strip `()*` decoration, split a range on the chosen
dash, normalise the parts (`present` in the second part means an open
end); a single date is returned as both start and end. -/
def parse_date (s0 : Str) : Option Str × Option Str :=
  let s := pyStripSet "()*".data s0
  if containsSub "–".data s || containsSub "-".data s then
    let parts := dateParts s
    (_convert_date (parts.getD 0 []),
      if decide (parts.length < 2)
          || containsSub "present".data (lowerS (parts.getD 1 [])) then none
      else _convert_date (parts.getD 1 []))
  else
    let d := _convert_date s
    (d, d)

/-- Python runtime errors that the embedded code could in principle
raise; list indexing is the only fallible operation in `parse_date`. -/
inductive PyErr where
  | indexError
deriving DecidableEq, Repr

/-- Python list indexing `l[i]`, raising `IndexError` when out of range. -/
def listIdxE (l : List α) (i : Nat) : Except PyErr α :=
  match l.get? i with
  | some v => Except.ok v
  | none => Except.error PyErr.indexError

/-- `parse_date` with list indexing modelled as a fallible operation:
exactly the source text, where `parts[0]` and `parts[1]` may raise. -/
def parse_dateE (s0 : Str) : Except PyErr (Option Str × Option Str) := do
  let s := pyStripSet "()*".data s0
  if containsSub "–".data s || containsSub "-".data s then
    let parts := dateParts s
    let p0 ← listIdxE parts 0
    let start := _convert_date p0
    if decide (parts.length < 2) then
      return (start, none)
    else
      let p1 ← listIdxE parts 1
      if containsSub "present".data (lowerS p1) then
        return (start, none)
      else
        return (start, _convert_date p1)
  else
    let d := _convert_date s
    return (d, d)

/-- A date part is recognized by `_convert_date` when the Month-Year
pattern matches with a known month abbreviation, or a four-digit year
starts the (stripped) part. -/
def recognizedDatePart (t : Str) : Bool :=
  (match matchMonthYear (pyStrip t) with
   | some (nm, _) => (month_map ((lowerS nm).take 3)).isSome
   | none => false)
  || (year4 (pyStrip t)).isSome

/-! ## Front-Matter Splitter (`parse_front_matter`) -/

/-- Insert into a Python dict modelled as an association list: an
existing key is updated in place, a new key is appended. -/
def dictInsert (k v : Str) : List (Str × Str) → List (Str × Str)
  | [] => [(k, v)]
  | (k', v') :: rest => if k' = k then (k', v) :: rest else (k', v') :: dictInsert k v rest

/-- One front-matter line: `key = value` pairs are recorded (value
unquoted), other lines are ignored. -/
def fmLine (d : List (Str × Str)) (line : Str) : List (Str × Str) :=
  if containsSub "=".data line then
    let parts := pySplitMax "=".data 1 line
    let key := pyStrip (parts.getD 0 [])
    let value := pyStripSet "\"'".data (pyStrip (parts.getD 1 []))
    dictInsert key value d
  else d

/-- `parse_front_matter`: if the text starts with `+++` and splits (with
at most two splits) into at least three parts, the first enclosed block
is parsed as key/value metadata and the rest is the stripped body;
otherwise no metadata and the body is the whole text. -/
def parse_front_matter (content : Str) : List (Str × Str) × Str :=
  if "+++".data.isPrefixOf content then
    let parts := pySplitMax "+++".data 2 content
    if 3 ≤ parts.length then
      let fmText := pyStrip (parts.getD 1 [])
      let body := pyStrip (parts.getD 2 [])
      ((pySplit "\n".data fmText).foldl fmLine [], body)
    else ([], content)
  else ([], content)

/-! ## Section spans (the `##\s+<Name>\s*\n(.*?)` searches) -/

/-- The lookahead `\n##\s+[^#]`: a newline, two hashes, a whitespace
character, then some further character other than `#`. -/
def headingStopAt (s : Str) (e : Nat) : Bool :=
  match s.drop e with
  | '\n' :: '#' :: '#' :: c :: c2 :: _ => isWs c && decide (c2 ≠ '#')
  | _ => false

/-- The lookahead alternative `\n---`. -/
def hrStopAt (s : Str) (e : Nat) : Bool := "\n---".data.isPrefixOf (s.drop e)

/-- Span boundary used by `parse_work_experience` and `parse_education`:
only the next `##` heading (end of document is handled by the scan). -/
def stopNoHr (s : Str) (e : Nat) : Bool := headingStopAt s e

/-- Span boundary used by `parse_skills`: the next `##` heading or a
`\n---` horizontal-rule marker. -/
def stopHr (s : Str) (e : Nat) : Bool := headingStopAt s e || hrStopAt s e

/-- Scan for the end of the lazy group `(.*?)`: the least position at or
after the start where the stop lookahead holds or the text ends. -/
def spanGo (stop : Str → Nat → Bool) (s : Str) : Nat → Nat → Nat
  | 0, _ => s.length
  | fuel + 1, e =>
    if s.length ≤ e then s.length
    else if stop s e then e
    else spanGo stop s fuel (e + 1)

def spanEnd (stop : Str → Nat → Bool) (s : Str) (e : Nat) : Nat :=
  spanGo stop s (s.length + 1 - e) e

/-- Greedy backtracking for `\s*\n` after the section name: the largest
`j ≤ k` with a newline at `i + j` (the whitespace run has length `k`). -/
def lastNl (s : Str) (i : Nat) : Nat → Option Nat
  | 0 => if charAt s i = some '\n' then some i else none
  | j + 1 =>
    if charAt s (i + (j + 1)) = some '\n' then some (i + (j + 1)) else lastNl s i j

/-- Match the heading `##\s+<name>\s*\n` at position `i`, returning the
position right after the consumed newline (start of the span). -/
def matchHeadAt (name : Str) (s : Str) (i : Nat) : Option Nat :=
  match matchLit "##".data s i with
  | none => none
  | some j =>
    let k := runLen isWs s j
    if k = 0 then none
    else
      match matchLit name s (j + k) with
      | none => none
      | some p =>
        match lastNl s p (runLen isWs s p) with
        | none => none
        | some q => some (q + 1)

/-- `re.search` for the section heading: leftmost matching position. -/
def searchHead (name : Str) (s : Str) : Option Nat :=
  scanFirst (fun i => matchHeadAt name s i) 0 (s.length + 1)

/-- The captured span of `##\s+<name>\s*\n(.*?)(?=<stop>|\Z)`. -/
def sectionSpan (name : Str) (stop : Str → Nat → Bool) (s : Str) : Option Str :=
  match searchHead name s with
  | none => none
  | some g0 => some ((s.take (spanEnd stop s g0)).drop g0)

/-- Modelled from the spec's common contract (claim C2): the span of any
section extractor is cut at the next heading, a horizontal-rule marker,
or end of document, whichever comes first. -/
def sectionSpanClaimed (name : Str) (s : Str) : Option Str :=
  sectionSpan name stopHr s

/-! ## Work Experience extractor (`parse_work_experience`) -/

/-- `re.match(r'\*\*([^*]+)\*\*\s*[–-]\s*(.+)', line)`: bold company
name, optional whitespace, an en dash or hyphen, and the location. -/
def companyMatch (line : Str) : Option (Str × Str) :=
  match line with
  | '*' :: '*' :: r =>
    let comp := r.takeWhile (· ≠ '*')
    if comp.isEmpty then none
    else
      match r.drop comp.length with
      | '*' :: '*' :: r2 =>
        let k := runLen isWs r2 0
        match charAt r2 k with
        | some c =>
          if c = '–' || c = '-' then
            match wsThenLine r2 (k + 1) with
            | some (loc, _) => some (comp, loc)
            | none => none
          else none
        | none => none
      | _ => none
  | _ => none

/-- `re.match(r'\(\*([^)]+)\*\)', line)`: a parenthesised italic date
expression; the group runs to the character before the asterisk that
precedes the first closing parenthesis. -/
def datesMatch (line : Str) : Option Str :=
  match line with
  | '(' :: '*' :: r =>
    let run := r.takeWhile (· ≠ ')')
    if decide (2 ≤ run.length) && decide (charAt r run.length = some ')')
        && decide (run.getLast? = some '*')
    then some run.dropLast else none
  | _ => none

/-- The description loop of `parse_work_experience`: skip lines until
the first blank one, then collect every remaining line. -/
def descTail : List Str → Bool → List Str
  | [], _ => []
  | l :: rest, false =>
    if (pyStrip l).isEmpty then descTail rest true else descTail rest false
  | l :: rest, true => l :: descTail rest true

structure WorkEntry where
  position : Str
  name : Str
  location : Str
  startDate : Option Str
  summary : Str
  endDate : Option Str
deriving DecidableEq, Repr

/-- One job block of `parse_work_experience` (the body of the loop over
`###`-separated sections); `none` models `continue`. -/
def parseJobSection (blk : Str) : Option WorkEntry :=
  if (pyStrip blk).isEmpty then none
  else if (pySplit "\n".data (pyStrip blk)).length < 3 then none
  else
    match companyMatch ((pySplit "\n".data (pyStrip blk)).getD 1 []) with
    | none => none
    | some (company, location) =>
      match datesMatch ((pySplit "\n".data (pyStrip blk)).getD 2 []) with
      | none => none
      | some dates =>
        some { position := pyStrip ((pySplit "\n".data (pyStrip blk)).getD 0 []),
               name := pyStrip company,
               location := pyStrip location,
               startDate := (parse_date (pyStrip dates)).1,
               summary := pyStrip (joinSep "\n".data
                 (descTail ((pySplit "\n".data (pyStrip blk)).drop 3) false)),
               endDate := (parse_date (pyStrip dates)).2 }

/-- One match of `###\s+` at position `i`: three hashes and a greedy
whitespace run of at least one character. -/
def matchHashSep (s : Str) (i : Nat) : Option Nat :=
  match matchLit "###".data s i with
  | none => none
  | some j =>
    let k := runLen isWs s j
    if k = 0 then none else some (j + k)

/-- `re.split(r'###\s+', s)`: split at each leftmost non-overlapping
match, removing the matched text. -/
def splitHashGo (s : Str) (st i : Nat) : Nat → List Str
  | 0 => [s.drop st]
  | fuel + 1 =>
    if s.length ≤ i then [s.drop st]
    else
      match matchHashSep s i with
      | some j => ((s.take i).drop st) :: splitHashGo s j j fuel
      | none => splitHashGo s st (i + 1) fuel

def splitHashSep (s : Str) : List Str := splitHashGo s 0 0 (s.length + 1)

/-- The `###`-separated blocks of the Experience section: the section
span with `\n---\n` rules replaced by blank lines, split on `###\s+`. -/
def workBlocks (content : Str) : List Str :=
  match sectionSpan "Experience".data stopNoHr content with
  | none => []
  | some span => splitHashSep (replaceAllSub "\n---\n".data "\n\n".data span)

/-- `parse_work_experience`. -/
def parse_work_experience (content : Str) : List WorkEntry :=
  (workBlocks content).filterMap parseJobSection

/-- The three required-field tests of a job block: at least three
stripped lines (so a position line exists), a matching bold
company/organization line, and a matching parenthesised date line. -/
def goodWorkBlock (blk : Str) : Bool :=
  decide (3 ≤ (pySplit "\n".data (pyStrip blk)).length)
    && (companyMatch ((pySplit "\n".data (pyStrip blk)).getD 1 [])).isSome
    && (datesMatch ((pySplit "\n".data (pyStrip blk)).getD 2 [])).isSome

/-! ## Site configuration (`parse_hugo_config`) -/

/-- One match of `<key>\s*=\s*["\']([^"\']+)["\']` at position `i`: the
key literal, optional whitespace around `=`, then a quoted value (the
closing quote need not pair with the opening one). -/
def matchKeyValAt (key : Str) (s : Str) (i : Nat) : Option Str :=
  match matchLit key s i with
  | none => none
  | some j =>
    let j1 := j + runLen isWs s j
    match charAt s j1 with
    | some '=' =>
      let j2 := (j1 + 1) + runLen isWs s (j1 + 1)
      match charAt s j2 with
      | some q =>
        if q = '"' || q = '\'' then
          let v := (s.drop (j2 + 1)).takeWhile (fun c => c ≠ '"' && c ≠ '\'')
          if v.isEmpty then none
          else
            match charAt s (j2 + 1 + v.length) with
            | some q2 => if q2 = '"' || q2 = '\'' then some v else none
            | none => none
        else none
      | none => none
    | _ => none

/-- `re.search` over the whole text for a quoted key/value pattern. -/
def searchKeyVal (key : Str) (s : Str) : Option Str :=
  scanFirst (fun i => matchKeyValAt key s i) 0 (s.length + 1)

/-- One match of `info\s*=\s*\[([^\]]+)\]` at position `i`. -/
def matchInfoAt (s : Str) (i : Nat) : Option Str :=
  match matchLit "info".data s i with
  | none => none
  | some j =>
    let j1 := j + runLen isWs s j
    match charAt s j1 with
    | some '=' =>
      let j2 := (j1 + 1) + runLen isWs s (j1 + 1)
      match charAt s j2 with
      | some '[' =>
        let v := (s.drop (j2 + 1)).takeWhile (· ≠ ']')
        if v.isEmpty then none
        else if charAt s (j2 + 1 + v.length) = some ']' then some v else none
      | _ => none
    | _ => none

def searchInfo (s : Str) : Option Str :=
  scanFirst (fun i => matchInfoAt s i) 0 (s.length + 1)

/-- One quoted item `["\']([^"\']+)["\']` at position `i`, with the end
position of the match. -/
def quotedAt (s : Str) (i : Nat) : Option (Str × Nat) :=
  match charAt s i with
  | some q =>
    if q = '"' || q = '\'' then
      let v := (s.drop (i + 1)).takeWhile (fun c => c ≠ '"' && c ≠ '\'')
      if v.isEmpty then none
      else
        match charAt s (i + 1 + v.length) with
        | some q2 =>
          if q2 = '"' || q2 = '\'' then some (v, i + 1 + v.length + 1) else none
        | none => none
    else none
  | none => none

/-- `re.findall`: collect non-overlapping matches left to right. -/
def findAllGo (f : Nat → Option (Str × Nat)) (i : Nat) : Nat → List Str
  | 0 => []
  | fuel + 1 =>
    match f i with
    | some (v, e) => v :: findAllGo f (max e (i + 1)) fuel
    | none => findAllGo f (i + 1) fuel

structure Profile where
  network : Option Str
  username : Option Str
  url : Option Str
deriving DecidableEq, Repr

/-- One `[[params.social]]` block: `name` gives the network and `url`
the link; the profile is kept only when non-empty (`if profile:`). -/
def socialProfile (block : Str) : Option Profile :=
  if (searchKeyVal "name".data block).isSome || (searchKeyVal "url".data block).isSome then
    some { network := searchKeyVal "name".data block,
           username := none,
           url := searchKeyVal "url".data block }
  else none

structure ConfigData where
  name : Option Str
  url : Option Str
  author : Option Str
  label : Option Str
  profiles : List Profile
deriving Repr

/-- `parse_hugo_config`: a missing file yields no data; otherwise title,
base URL (trailing slashes stripped), author, the first `info` array
item as label, and the `[[params.social]]` blocks (the text pieces
after each marker, via the non-overlapping split) as profiles. -/
def parse_hugo_config (file : Option Str) : ConfigData :=
  match file with
  | none => { name := none, url := none, author := none, label := none, profiles := [] }
  | some content =>
    { name := searchKeyVal "title".data content,
      url := (searchKeyVal "baseURL".data content).map (pyRstripSet "/".data),
      author := searchKeyVal "author".data content,
      label :=
        match searchInfo content with
        | some inner =>
          match findAllGo (fun i => quotedAt inner i) 0 (inner.length + 1) with
          | [] => none
          | x :: _ => some x
        | none => none,
      profiles := ((pySplit "[[params.social]]".data content).drop 1).filterMap socialProfile }

/-! ## Contact extraction (`parse_contact_info`) -/

/-- The obfuscated-address pattern
`saleh\.mehdikhani\s*\[at\]\s*gmail\s*dot\s*com` (case-insensitive),
matched at position `i`. -/
def matchObfusAt (s : Str) (i : Nat) : Option Nat :=
  match matchLitCI "saleh.mehdikhani".data s i with
  | none => none
  | some j =>
    match matchLitCI "[at]".data s (j + runLen isWs s j) with
    | none => none
    | some j2 =>
      match matchLitCI "gmail".data s (j2 + runLen isWs s j2) with
      | none => none
      | some j4 =>
        match matchLitCI "dot".data s (j4 + runLen isWs s j4) with
        | none => none
        | some j6 => matchLitCI "com".data s (j6 + runLen isWs s j6)

def isEmailC (c : Char) : Bool := isWordC c || c = '.' || c = '-'

/-- Backtracking for the domain of `[\w\.-]+\.\w+`: the largest index
`j ≥ 1` in the class run `r` holding a dot followed by a word
character. -/
def emailDotSplit (r : Str) : Nat → Option Nat
  | 0 => none
  | j + 1 =>
    if charAt r (j + 1) = some '.'
        && (match charAt r (j + 2) with | some c => isWordC c | none => false)
    then some (j + 1)
    else emailDotSplit r j

/-- `re.search(r'[\w\.-]+@[\w\.-]+\.\w+', s)` attempted at position `i`:
returns the whole matched text (`group(0)`). -/
def matchEmailAt (s : Str) (i : Nat) : Option Str :=
  let l := (s.drop i).takeWhile isEmailC
  if l.isEmpty then none
  else
    match charAt s (i + l.length) with
    | some '@' =>
      let r := (s.drop (i + l.length + 1)).takeWhile isEmailC
      match emailDotSplit r r.length with
      | some j =>
        let w := (r.drop (j + 1)).takeWhile isWordC
        some (l ++ '@' :: (r.take j ++ '.' :: w))
      | none => none
    | _ => none

/-- `re.search(r'linkedin\.com/in/([\w-]+)', s)` at position `i`: the
captured username run. -/
def matchLinkedInAt (s : Str) (i : Nat) : Option Str :=
  match matchLit "linkedin.com/in/".data s i with
  | none => none
  | some j =>
    let u := (s.drop j).takeWhile (fun c => isWordC c || c = '-')
    if u.isEmpty then none else some u

/-- A bold label followed by `\s*` and a captured class run, e.g.
`\*\*Phone:\*\*\s*(\d+)` or `\*\*City:\*\*\s*(\w+)`, at position `i`. -/
def matchLblClassAt (lbl : Str) (cls : Char → Bool) (s : Str) (i : Nat) : Option Str :=
  match matchLit lbl s i with
  | none => none
  | some j =>
    let w := (s.drop (j + runLen isWs s j)).takeWhile cls
    if w.isEmpty then none else some w

structure ContactInfo where
  email : Option Str
  linkedin : Option Str
  phone : Option Str
  city : Option Str
  country : Option Str
deriving Repr

/-- `parse_contact_info` over the contents of `contact.md` and
`other.md` (a missing file contributes nothing). -/
def parse_contact_info (contact other : Option Str) : ContactInfo :=
  { email :=
      match contact with
      | none => none
      | some c =>
        if (scanFirst (fun i => matchObfusAt c i) 0 (c.length + 1)).isSome then
          some "saleh.mehdikhani@gmail.com".data
        else scanFirst (fun i => matchEmailAt c i) 0 (c.length + 1),
    linkedin :=
      match contact with
      | none => none
      | some c =>
        match scanFirst (fun i => matchLinkedInAt c i) 0 (c.length + 1) with
        | some u => some ("https://www.linkedin.com/in/".data ++ u ++ "/".data)
        | none => none,
    phone :=
      match other with
      | none => none
      | some o =>
        match scanFirst (fun i => matchLblClassAt "**Phone:**".data isDigitC o i) 0
            (o.length + 1) with
        | some p =>
          some (if "+".data.isPrefixOf (pyStrip p) then pyStrip p
                else "+358 ".data ++ pyLstripSet "0".data (pyStrip p))
        | none => none,
    city :=
      match other with
      | none => none
      | some o =>
        scanFirst (fun i => matchLblClassAt "**City:**".data isWordC o i) 0 (o.length + 1),
    country :=
      match other with
      | none => none
      | some o =>
        scanFirst (fun i => matchLblClassAt "**Country:**".data isWordC o i) 0
          (o.length + 1) }

/-! ## Profile assembly in `build_resume` -/

/-- Python truthiness of an optional string
(`if contact_info.get('linkedin'):`). -/
def optTruthy : Option Str → Bool
  | some v => !v.isEmpty
  | none => false

/-- The LinkedIn profile built from a contact-discovered URL: username
is the next-to-last `/`-separated segment (`split('/')[-2]`; the source
value always contains enough slashes for the negative index). -/
def mkLinkedInProfile (u : Str) : Profile :=
  { network := some "LinkedIn".data,
    username := some ((pySplit "/".data u).getD ((pySplit "/".data u).length - 2) []),
    url := some u }

/-- The profile-merging step of `build_resume`: the contact-discovered
LinkedIn profile is appended only when no configuration profile has
network exactly `"LinkedIn"`. -/
def assembledProfiles (cfgProfiles : List Profile) (linkedin : Option Str) : List Profile :=
  if optTruthy linkedin then
    if cfgProfiles.any (fun p => decide (p.network = some "LinkedIn".data)) then cfgProfiles
    else cfgProfiles ++ [mkLinkedInProfile (linkedin.getD [])]
  else cfgProfiles

/-- The number of profiles with the given network name. -/
def countNet (n : Str) (ps : List Profile) : Nat :=
  (ps.filter (fun p => decide (p.network = some n))).length

/-- The two social blocks of the duplicate-configuration scenario. -/
def socialBlockA : Str := "\nname = \"LinkedIn\"\nurl = \"https://a\"\n".data

def socialBlockB : Str := "\nname = \"LinkedIn\"\nurl = \"https://b\"\n".data

/-- A site configuration declaring two `[[params.social]]` blocks that
both carry network name `LinkedIn`. -/
def cfgTwoLinkedIn : Str :=
  "[[params.social]]".data ++ socialBlockA ++ "[[params.social]]".data ++ socialBlockB

/-- A contact document containing a LinkedIn profile URL. -/
def contactWithLinkedIn : Str := "profile: linkedin.com/in/me".data

/-! ## Skills extractor (`parse_skills`) -/

structure SkillGroup where
  name : Str
  keywords : List Str
deriving DecidableEq, Repr

/-- One match of `-\s+\*\*([^:]+):\*\*\s+(.+)` at position `i`: dash,
whitespace, bold category up to a colon, then the items; returns both
groups and the end position. -/
def matchSkillAt (s : Str) (i : Nat) : Option (Str × Str × Nat) :=
  match charAt s i with
  | some '-' =>
    if runLen isWs s (i + 1) = 0 then none
    else
      match matchLit "**".data s (i + 1 + runLen isWs s (i + 1)) with
      | none => none
      | some j =>
        let cat := (s.drop j).takeWhile (· ≠ ':')
        if cat.isEmpty then none
        else
          match matchLit ":**".data s (j + cat.length) with
          | none => none
          | some j2 =>
            match wsPlusThenLine s j2 with
            | some (items, e) => some (cat, items, e)
            | none => none
  | _ => none

/-- `re.finditer` for the skills line pattern. -/
def skillsGo (s : Str) (i : Nat) : Nat → List (Str × Str)
  | 0 => []
  | fuel + 1 =>
    if s.length ≤ i then []
    else
      match matchSkillAt s i with
      | some (cat, items, e) => (cat, items) :: skillsGo s (max e (i + 1)) fuel
      | none => skillsGo s (i + 1) fuel

/-- `parse_skills`. -/
def parse_skills (content : Str) : List SkillGroup :=
  match sectionSpan "Skills".data stopHr content with
  | none => []
  | some span =>
    (skillsGo span 0 (span.length + 1)).map (fun cs =>
      { name := pyStrip cs.1,
        keywords := (pySplit ",".data (pyStrip cs.2)).map pyStrip })

/-! ## Education extractor (`parse_education`) -/

/-- `re.match(r'\*\*([^*]+)\*\*', line)`. -/
def institutionMatch (line : Str) : Option Str :=
  match line with
  | '*' :: '*' :: r =>
    let inst := r.takeWhile (· ≠ '*')
    if inst.isEmpty then none
    else
      match r.drop inst.length with
      | '*' :: '*' :: _ => some inst
      | _ => none
  | _ => none

/-- `re.match(r'([^,]+)(?:,\s*(.+))?', line)`: the study type up to the
first comma, optionally followed by the area of study. -/
def degreeMatch (line : Str) : Option (Str × Option Str) :=
  let R := line.takeWhile (· ≠ ',')
  if R.isEmpty then none
  else
    match line.drop R.length with
    | ',' :: r2 =>
      match wsThenLine r2 0 with
      | some (area, _) => some (R, some area)
      | none => some (R, none)
    | _ => some (R, none)

/-- The education description loop: only non-blank lines after the
first blank one are collected. -/
def descTailEdu : List Str → Bool → List Str
  | [], _ => []
  | l :: rest, false =>
    if (pyStrip l).isEmpty then descTailEdu rest true else descTailEdu rest false
  | l :: rest, true =>
    if (pyStrip l).isEmpty then descTailEdu rest true else l :: descTailEdu rest true

/-- One match of `Thesis:\s*([^\n]+)` (case-insensitive) at `i`. -/
def matchThesisAt (s : Str) (i : Nat) : Option Str :=
  match matchLitCI "thesis:".data s i with
  | none => none
  | some j =>
    match wsThenLine s j with
    | some (g, _) => some g
    | none => none

def searchThesis (s : Str) : Option Str :=
  scanFirst (fun i => matchThesisAt s i) 0 (s.length + 1)

/-- The pattern `\n\*[^*]+\*\s*$` at position `i`: since `$` is reached
through `\s*`, everything after the closing asterisk must be
whitespace. -/
def italicTailAt (s : Str) (i : Nat) : Bool :=
  match s.drop i with
  | '\n' :: '*' :: r =>
    let m := r.takeWhile (· ≠ '*')
    if m.isEmpty then false
    else
      match r.drop m.length with
      | '*' :: rest => rest.all isWs
      | _ => false
  | _ => false

/-- `re.sub(r'\n\*[^*]+\*\s*$', '', s)`: the (single possible) match
extends to the end of the string, so the text before it remains. -/
def stripTrailingItalic (s : Str) : Str :=
  match scanFirst (fun i => if italicTailAt s i then some i else none) 0 (s.length + 1) with
  | some i => s.take i
  | none => s

structure EduEntry where
  institution : Str
  studyType : Str
  area : Str
  startDate : Option Str
  endDate : Option Str
  score : Str
  courses : List Str
deriving DecidableEq, Repr

/-- One education block (the body of the loop over `###`-separated
sections of the Education span). -/
def parseEduSection (blk : Str) : Option EduEntry :=
  if (pyStrip blk).isEmpty then none
  else if (pySplit "\n".data (pyStrip blk)).length < 3 then none
  else
    match institutionMatch ((pySplit "\n".data (pyStrip blk)).getD 1 []) with
    | none => none
    | some inst =>
      match datesMatch ((pySplit "\n".data (pyStrip blk)).getD 2 []) with
      | none => none
      | some dates =>
        let degree_info := pyStrip ((pySplit "\n".data (pyStrip blk)).getD 0 [])
        let descr := pyStrip (joinSep "\n".data
          (descTailEdu ((pySplit "\n".data (pyStrip blk)).drop 3) false))
        let st_area :=
          match degreeMatch degree_info with
          | some (st, a) => (pyStrip st, match a with | some a2 => pyStrip a2 | none => ([] : Str))
          | none => (degree_info, ([] : Str))
        some { institution := pyStrip inst,
               studyType := st_area.1,
               area := st_area.2,
               startDate := (parse_date (pyStrip dates)).1,
               endDate := (parse_date (pyStrip dates)).2,
               score := [],
               courses :=
                 if containsSub "thesis".data (lowerS descr) then
                   match searchThesis descr with
                   | some th => [pyStrip th]
                   | none => []
                 else [] }

/-- `parse_education`. -/
def parse_education (content : Str) : List EduEntry :=
  match sectionSpan "Education".data stopNoHr content with
  | none => []
  | some span =>
    (splitHashSep (stripTrailingItalic
      (replaceAllSub "\n---\n".data "\n\n".data span))).filterMap parseEduSection

/-! ## Projects extractor (`parse_projects`) -/

structure Project where
  name : Str
  summary : Str
  highlights : List Str
  keywords : List Str
  startDate : Str
  endDate : Str
  url : Str
  roles : List Str
  entity : Str
  ptype : Str
deriving DecidableEq, Repr

/-- Greedy `\s+` backtracking: try lengths `k, k-1, …, 1`. -/
def tryKdesc (f : Nat → Option α) : Nat → Option α
  | 0 => none
  | k + 1 =>
    match f (k + 1) with
    | some r => some r
    | none => tryKdesc f k

/-- Greedy `\s*` backtracking: try lengths `k, k-1, …, 0`. -/
def tryKdesc0 (f : Nat → Option α) : Nat → Option α
  | 0 => f 0
  | k + 1 =>
    match f (k + 1) with
    | some r => some r
    | none => tryKdesc0 f k

/-- The project-pattern lookahead `(?=\n##|\n---|\Z)` (plain literals,
unlike the section-heading lookahead). -/
def stopProj (s : Str) (e : Nat) : Bool :=
  "\n##".data.isPrefixOf (s.drop e) || "\n---".data.isPrefixOf (s.drop e)

/-- Match `\*\*Descri[pt]tions?:\*\*\s*((?:.|\n)*?(?=\n##|\n---|\Z))` at
position `i`, returning the captured description and the end. -/
def matchDescrPart (s : Str) (i : Nat) : Option (Str × Nat) :=
  match matchLit "**Descri".data s i with
  | none => none
  | some j =>
    match charAt s j with
    | some c =>
      if c = 'p' || c = 't' then
        match matchLit "tion".data s (j + 1) with
        | none => none
        | some j2 =>
          match (match charAt s j2 with
                 | some ':' => some (j2 + 1)
                 | some 's' => if charAt s (j2 + 1) = some ':' then some (j2 + 2) else none
                 | _ => none : Option Nat) with
          | none => none
          | some j4 =>
            match matchLit "**".data s j4 with
            | none => none
            | some j5 =>
              let g0 := j5 + runLen isWs s j5
              let e := spanEnd stopProj s g0
              some ((s.take e).drop g0, e)
      else none
    | none => none

/-- Match `\*\*Technologies:\*\*\s*([^\n]+)\n\n` followed by the
description part at position `i`. -/
def matchTechPart (s : Str) (i : Nat) : Option (Str × Str × Nat) :=
  match matchLit "**Technologies:**".data s i with
  | none => none
  | some j =>
    tryKdesc0 (fun k =>
      let q := j + k
      let tech := (s.drop q).takeWhile (· ≠ '\n')
      if tech.isEmpty then none
      else if charAt s (q + tech.length) = some '\n'
          && charAt s (q + tech.length + 1) = some '\n' then
        match matchDescrPart s (q + tech.length + 2) with
        | some (desc, e) => some (tech, desc, e)
        | none => none
      else none) (runLen isWs s j)

/-- Match one whole project pattern
`##\s+([^\n]+)\n\*\*Technologies…` at position `i`. -/
def matchProjAt (s : Str) (i : Nat) : Option (Str × Str × Str × Nat) :=
  match matchLit "##".data s i with
  | none => none
  | some p =>
    tryKdesc (fun k =>
      let q := p + k
      let title := (s.drop q).takeWhile (· ≠ '\n')
      if title.isEmpty then none
      else if charAt s (q + title.length) = some '\n' then
        match matchTechPart s (q + title.length + 1) with
        | some (tech, desc, e) => some (title, tech, desc, e)
        | none => none
      else none) (runLen isWs s p)

/-- `re.finditer` for the project pattern. -/
def projGo (s : Str) (i : Nat) : Nat → List (Str × Str × Str)
  | 0 => []
  | fuel + 1 =>
    if s.length ≤ i then []
    else
      match matchProjAt s i with
      | some (t, te, d, e) => (t, te, d) :: projGo s (max e (i + 1)) fuel
      | none => projGo s (i + 1) fuel

/-- `re.match(r'([^:\[]+)(?::\s*\[([^\]]+)\])?', title)`. -/
def titleMatch (t : Str) : Option (Str × Option Str) :=
  let R := t.takeWhile (fun c => c ≠ ':' && c ≠ '[')
  if R.isEmpty then none
  else
    match t.drop R.length with
    | ':' :: r2 =>
      match r2.drop (runLen isWs r2 0) with
      | '[' :: r3 =>
        let E := r3.takeWhile (· ≠ ']')
        if E.isEmpty then some (R, none)
        else if charAt r3 E.length = some ']' then some (R, some E)
        else some (R, none)
      | _ => some (R, none)
    | _ => some (R, none)

/-- One match of `\[(?:View on [^\]]+|Demo)\]\(([^)]+)\)` at `i`. -/
def matchViewUrlAt (s : Str) (i : Nat) : Option (Str × Nat) :=
  match charAt s i with
  | some '[' =>
    match (match matchLit "View on ".data s (i + 1) with
           | some j =>
             let lbl := (s.drop j).takeWhile (· ≠ ']')
             if lbl.isEmpty then none
             else if charAt s (j + lbl.length) = some ']' then some (j + lbl.length + 1)
             else none
           | none => matchLit "Demo]".data s (i + 1) : Option Nat) with
    | none => none
    | some a =>
      match charAt s a with
      | some '(' =>
        let u := (s.drop (a + 1)).takeWhile (· ≠ ')')
        if u.isEmpty then none
        else if charAt s (a + 1 + u.length) = some ')' then some (u, a + 1 + u.length + 1)
        else none
      | _ => none
  | _ => none

/-- One match of `\]\((https?://[^)]+)\)` at `i`: the captured group
includes the scheme. -/
def matchPlainUrlAt (s : Str) (i : Nat) : Option (Str × Nat) :=
  match matchLit "](".data s i with
  | none => none
  | some j =>
    match (match matchLit "https://".data s j with
           | some j2 => some j2
           | none => matchLit "http://".data s j : Option Nat) with
    | none => none
    | some j2 =>
      let u := (s.drop j2).takeWhile (· ≠ ')')
      if u.isEmpty then none
      else if charAt s (j2 + u.length) = some ')' then
        some (((s.take j2).drop j) ++ u, j2 + u.length + 1)
      else none

/-- One match of `\[([^\]]+)\]\([^)]+\)` at `i` (the link-unwrapping
substitution): the replacement is the label. -/
def matchMdLinkAt (s : Str) (i : Nat) : Option (Str × Nat) :=
  match charAt s i with
  | some '[' =>
    let lbl := (s.drop (i + 1)).takeWhile (· ≠ ']')
    if lbl.isEmpty then none
    else
      match charAt s (i + 1 + lbl.length) with
      | some ']' =>
        match charAt s (i + 1 + lbl.length + 1) with
        | some '(' =>
          let u := (s.drop (i + 1 + lbl.length + 2)).takeWhile (· ≠ ')')
          if u.isEmpty then none
          else if charAt s (i + 1 + lbl.length + 2 + u.length) = some ')' then
            some (lbl, i + 1 + lbl.length + 2 + u.length + 1)
          else none
        | _ => none
      | _ => none
  | _ => none

/-- One match of `\*\*([^*]+)\*\*` at `i` (the bold-stripping
substitution). -/
def matchBoldAt (s : Str) (i : Nat) : Option (Str × Nat) :=
  match matchLit "**".data s i with
  | none => none
  | some j =>
    let b := (s.drop j).takeWhile (· ≠ '*')
    if b.isEmpty then none
    else if charAt s (j + b.length) = some '*' && charAt s (j + b.length + 1) = some '*' then
      some (b, j + b.length + 2)
    else none

/-- `re.sub` with a replacement computed per match: scan left to right,
replacing non-overlapping matches. -/
def subGo (f : Str → Nat → Option (Str × Nat)) (s : Str) (i : Nat) : Nat → Str
  | 0 => s.drop i
  | fuel + 1 =>
    if s.length ≤ i then []
    else
      match f s i with
      | some (rep, e) =>
        if i < e then rep ++ subGo f s e fuel
        else s.getD i ' ' :: subGo f s (i + 1) fuel
      | none => s.getD i ' ' :: subGo f s (i + 1) fuel

/-- `parse_projects` over the contents of `projects.md`. -/
def parse_projects (file : Option Str) : List Project :=
  match file with
  | none => []
  | some content =>
    let body := (parse_front_matter content).2
    (projGo body 0 (body.length + 1)).map (fun tg =>
      let title_line := pyStrip tg.1
      let technologies := pyStrip tg.2.1
      let description := pyStrip tg.2.2
      let name_entity :=
        match titleMatch title_line with
        | some (nm, ent) =>
          (pyStrip nm, match ent with | some e2 => pyStrip e2 | none => ([] : Str))
        | none => (title_line, ([] : Str))
      let url :=
        match findAllGo (fun i => matchViewUrlAt description i) 0 (description.length + 1) with
        | u :: _ => u
        | [] =>
          match findAllGo (fun i => matchPlainUrlAt description i) 0
              (description.length + 1) with
          | u :: _ => u
          | [] => []
      let clean0 := subGo matchMdLinkAt description 0 (description.length + 1)
      let clean1 := pyStrip (subGo matchBoldAt clean0 0 (clean0.length + 1))
      let sum_hl :=
        if containsSub "\n-".data clean1 then
          ((pyStrip ((pySplit "\n-".data clean1).getD 0 [])),
           ((pySplit "\n-".data clean1).drop 1).map
             (fun item => pyRstrip (pyLstripSet "* ".data (pyStrip item))))
        else (clean1, [])
      { name := name_entity.1,
        summary := sum_hl.1,
        highlights := sum_hl.2,
        keywords := (pySplit ",".data technologies).map pyStrip,
        startDate := [],
        endDate := [],
        url := url,
        roles := [],
        entity := name_entity.2,
        ptype := [] })

/-! ## Summary extraction in `build_resume` -/

/-- The repetition `(?:\n(?!##)[^\n]+)*` of the summary pattern. -/
def summaryMore (s : Str) : Nat → Str
  | 0 => []
  | fuel + 1 =>
    match s with
    | '\n' :: rest =>
      if "##".data.isPrefixOf rest then []
      else
        let ln := rest.takeWhile (· ≠ '\n')
        if ln.isEmpty then []
        else '\n' :: (ln ++ summaryMore (rest.drop ln.length) fuel)
    | _ => []

/-- The group of `re.match(r'([^\n]+(?:\n(?!##)[^\n]+)*)', body)`. -/
def summaryGroup (s : Str) : Str :=
  s.takeWhile (· ≠ '\n') ++ summaryMore (s.drop (s.takeWhile (· ≠ '\n')).length) (s.length + 1)

/-- The summary as set by `build_resume`: the matched group of the
stripped body, stripped again; an empty stripped body does not match
and leaves the empty default. -/
def summaryOf (body : Str) : Str :=
  if (pyStrip body).isEmpty then [] else pyStrip (summaryGroup (pyStrip body))

/-! ## JSON values and serialization (`save_json`) -/

inductive JVal where
  | jnull : JVal
  | jstr : Str → JVal
  | jarr : List JVal → JVal
  | jobj : List (Str × JVal) → JVal

def hexDigit (n : Nat) : Char :=
  if n < 10 then Char.ofNat ('0'.toNat + n) else Char.ofNat ('a'.toNat + (n - 10))

/-- JSON string escaping as `json.dump(..., ensure_ascii=False)` does
it: quotes, backslashes and control characters. -/
def jEscapeC (c : Char) : Str :=
  if c = '"' then ['\\', '"']
  else if c = '\\' then ['\\', '\\']
  else if c = '\n' then ['\\', 'n']
  else if c = '\t' then ['\\', 't']
  else if c = '\r' then ['\\', 'r']
  else if c.toNat = 8 then ['\\', 'b']
  else if c.toNat = 12 then ['\\', 'f']
  else if c.toNat < 32 then
    '\\' :: 'u' :: '0' :: '0' :: hexDigit (c.toNat / 16) :: [hexDigit (c.toNat % 16)]
  else [c]

def jEscape (s : Str) : Str := s.foldr (fun c acc => jEscapeC c ++ acc) []

def pad (n : Nat) : Str := List.replicate n ' '

mutual

/-- `json.dump` with `indent=2`: two-space indentation, `", "`-free
item separators on their own lines, `": "` after keys. -/
def jser (ind : Nat) : JVal → Str
  | .jnull => "null".data
  | .jstr v => '"' :: (jEscape v ++ ['"'])
  | .jarr [] => "[]".data
  | .jarr (x :: xs) =>
    "[\n".data ++ pad (ind + 2) ++ jser (ind + 2) x ++ jserArr (ind + 2) xs
      ++ '\n' :: (pad ind ++ "]".data)
  | .jobj [] => "\x7b\x7d".data
  | .jobj (f :: fs) =>
    "\x7b\n".data ++ pad (ind + 2) ++ jserField (ind + 2) f ++ jserObj (ind + 2) fs
      ++ '\n' :: (pad ind ++ "\x7d".data)

def jserArr (ind : Nat) : List JVal → Str
  | [] => []
  | x :: xs => ",\n".data ++ pad ind ++ jser ind x ++ jserArr ind xs

def jserField (ind : Nat) : Str × JVal → Str
  | (k, v) => '"' :: (jEscape k ++ "\": ".data) ++ jser ind v

def jserObj (ind : Nat) : List (Str × JVal) → Str
  | [] => []
  | f :: fs => ",\n".data ++ pad ind ++ jserField ind f ++ jserObj ind fs

end

def optStrJ : Option Str → JVal
  | some v => .jstr v
  | none => .jnull

/-- A profile dict: only the discovered keys are present, in insertion
order network, username, url. -/
def profileJ (p : Profile) : JVal :=
  .jobj ((match p.network with | some n => [("network".data, JVal.jstr n)] | none => [])
    ++ (match p.username with | some u => [("username".data, JVal.jstr u)] | none => [])
    ++ (match p.url with | some u => [("url".data, JVal.jstr u)] | none => []))

/-- A work-entry dict; `endDate` is added only when truthy. -/
def workJ (w : WorkEntry) : JVal :=
  .jobj ([("position".data, JVal.jstr w.position),
          ("name".data, JVal.jstr w.name),
          ("location".data, JVal.jstr w.location),
          ("startDate".data, optStrJ w.startDate),
          ("summary".data, JVal.jstr w.summary)]
    ++ (if optTruthy w.endDate then [("endDate".data, JVal.jstr (w.endDate.getD []))] else []))

def eduJ (e : EduEntry) : JVal :=
  .jobj [("institution".data, JVal.jstr e.institution),
         ("studyType".data, JVal.jstr e.studyType),
         ("area".data, JVal.jstr e.area),
         ("startDate".data, optStrJ e.startDate),
         ("endDate".data, optStrJ e.endDate),
         ("score".data, JVal.jstr e.score),
         ("courses".data, JVal.jarr (e.courses.map JVal.jstr))]

def skillJ (g : SkillGroup) : JVal :=
  .jobj [("name".data, JVal.jstr g.name),
         ("keywords".data, JVal.jarr (g.keywords.map JVal.jstr))]

def projJ (p : Project) : JVal :=
  .jobj [("name".data, JVal.jstr p.name),
         ("summary".data, JVal.jstr p.summary),
         ("highlights".data, JVal.jarr (p.highlights.map JVal.jstr)),
         ("keywords".data, JVal.jarr (p.keywords.map JVal.jstr)),
         ("startDate".data, JVal.jstr p.startDate),
         ("endDate".data, JVal.jstr p.endDate),
         ("url".data, JVal.jstr p.url),
         ("roles".data, JVal.jarr (p.roles.map JVal.jstr)),
         ("entity".data, JVal.jstr p.entity),
         ("type".data, JVal.jstr p.ptype)]

/-! ## `build_resume` and `save_json` -/

/-- The converter's `resume_data` dict. -/
structure ResumeData where
  basics : JVal
  work : JVal
  education : JVal
  skills : JVal
  projects : JVal
  volunteer : JVal
  awards : JVal
  publications : JVal
  languages : JVal
  interests : JVal
  references : JVal
  meta : JVal

def metaInit : JVal :=
  .jobj [("version".data, JVal.jstr "v1.0.0".data),
         ("canonical".data,
          JVal.jstr "https://github.com/jsonresume/resume-schema/blob/v1.0.0/schema.json".data)]

/-- `MarkdownToJsonConverter.__init__`: the initial `resume_data`. -/
def initResumeData : ResumeData :=
  { basics := .jobj [], work := .jarr [], education := .jarr [], skills := .jarr [],
    projects := .jarr [], volunteer := .jarr [], awards := .jarr [],
    publications := .jarr [], languages := .jarr [], interests := .jarr [],
    references := .jarr [], meta := metaInit }

/-- The input documents of one conversion run (a missing file is
`none`). -/
structure Inputs where
  hugoToml : Option Str
  contactMd : Option Str
  otherMd : Option Str
  aboutMd : Option Str
  projectsMd : Option Str

/-- The `basics` dict assembled by `build_resume`: configuration and
contact values with fixed fallbacks, the summary from the About body,
and the merged profile list. -/
def buildBasics (cfg : ConfigData) (ci : ContactInfo) (summary : Str) : JVal :=
  .jobj [("name".data, JVal.jstr (cfg.name.getD "Saleh Mehdikhani".data)),
         ("label".data, JVal.jstr (cfg.label.getD "Senior System Software Developer".data)),
         ("email".data, JVal.jstr (ci.email.getD [])),
         ("phone".data, JVal.jstr (ci.phone.getD [])),
         ("url".data, JVal.jstr (cfg.url.getD [])),
         ("summary".data, JVal.jstr summary),
         ("location".data, JVal.jobj
           [("city".data, JVal.jstr (ci.city.getD [])),
            ("countryCode".data, JVal.jstr "FI".data),
            ("region".data, JVal.jstr (ci.country.getD "Finland".data))]),
         ("profiles".data,
          JVal.jarr ((assembledProfiles cfg.profiles ci.linkedin).map profileJ))]

/-- `build_resume` as a transformer of the converter's `resume_data`:
basics, projects (and, when the About document exists, summary, skills,
work and education) are recomputed from the inputs; every other field
passes through. -/
def build_resume (inp : Inputs) (st : ResumeData) : ResumeData :=
  match inp.aboutMd with
  | some content =>
    { st with
      basics := buildBasics (parse_hugo_config inp.hugoToml)
        (parse_contact_info inp.contactMd inp.otherMd)
        (summaryOf (parse_front_matter content).2),
      skills := .jarr ((parse_skills (parse_front_matter content).2).map skillJ),
      work := .jarr ((parse_work_experience (parse_front_matter content).2).map workJ),
      education := .jarr ((parse_education (parse_front_matter content).2).map eduJ),
      projects := .jarr ((parse_projects inp.projectsMd).map projJ) }
  | none =>
    { st with
      basics := buildBasics (parse_hugo_config inp.hugoToml)
        (parse_contact_info inp.contactMd inp.otherMd) [],
      projects := .jarr ((parse_projects inp.projectsMd).map projJ) }

/-- The full output dict in insertion order. -/
def resumeToJ (st : ResumeData) : JVal :=
  .jobj [("basics".data, st.basics), ("work".data, st.work),
         ("education".data, st.education), ("skills".data, st.skills),
         ("projects".data, st.projects), ("volunteer".data, st.volunteer),
         ("awards".data, st.awards), ("publications".data, st.publications),
         ("languages".data, st.languages), ("interests".data, st.interests),
         ("references".data, st.references), ("meta".data, st.meta)]

/-- `save_json`: the serialized bytes written to the output file. -/
def save_json (st : ResumeData) : Str := jser 0 (resumeToJ st)

def lookupKey (k : Str) : List (Str × JVal) → Option JVal
  | [] => none
  | (k', v) :: rest => if k' = k then some v else lookupKey k rest

def objLookup (k : Str) : JVal → Option JVal
  | .jobj fields => lookupKey k fields
  | _ => none

end MdJson

namespace MdJson

/-! ## Supporting lemmas -/

theorem pySplitMax_ne_nil (sep : Str) (n : Nat) (s : Str) : pySplitMax sep n s ≠ [] := by
  cases n with
  | zero => simp [pySplitMax]
  | succ n =>
    unfold pySplitMax
    cases findSub sep s with
    | none => simp
    | some i => simp

theorem pySplit_ne_nil (sep s : Str) : pySplit sep s ≠ [] :=
  pySplitMax_ne_nil sep s.length s

theorem takeWhile_all_app {p : Char → Bool} {l1 : Str} (c : Char) (l2 : Str)
    (h1 : l1.all p = true) (h2 : p c = false) :
    (l1 ++ c :: l2).takeWhile p = l1 := by
  induction l1 with
  | nil => simp [List.takeWhile, h2]
  | cons a t ih =>
    simp only [List.all_cons, Bool.and_eq_true] at h1
    simp [List.takeWhile, h1.1, ih h1.2]

theorem dropWhile_all_app {p : Char → Bool} {l1 : Str} (c : Char) (l2 : Str)
    (h1 : l1.all p = true) (h2 : p c = false) :
    (l1 ++ c :: l2).dropWhile p = c :: l2 := by
  induction l1 with
  | nil => simp [List.dropWhile, h2]
  | cons a t ih =>
    simp only [List.all_cons, Bool.and_eq_true] at h1
    simp [List.dropWhile, h1.1, ih h1.2]

theorem dropWhile_eq_self_of_head {p : Char → Bool} {c : Char} {t : Str}
    (h : p c = false) : (c :: t).dropWhile p = c :: t := by
  simp [List.dropWhile, h]

theorem isWordC_not_ws {c : Char} (h : isWordC c = true) : isWs c = false := by
  cases hw : isWs c with
  | false => rfl
  | true =>
    exfalso
    have hc : ((((c = ' ' ∨ c = '\t') ∨ c = '\n') ∨ c = '\r') ∨ c = '\x0b') ∨ c = '\x0c' := by
      simpa [isWs, Bool.or_eq_true, decide_eq_true_eq] using hw
    rcases hc with ((((rfl | rfl) | rfl) | rfl) | rfl) | rfl <;> exact absurd h (by decide)

theorem isDigitC_not_ws {c : Char} (h : isDigitC c = true) : isWs c = false :=
  isWordC_not_ws (by simp [isWordC, h])

theorem pyStrip_eq_self_of {s : Str} (h1 : s.dropWhile isWs = s)
    (h2 : s.reverse.dropWhile isWs = s.reverse) : pyStrip s = s := by
  unfold pyStrip stripEnd
  rw [h1, h2, List.reverse_reverse]

/-! ## Claims C3, C4, C5 -/

/-- C3: for every input string the Date Normalizer (`parse_date` with
`_convert_date`) terminates without raising an exception — the
exception-aware embedding always returns `ok` of the pure value — and a
part recognized by neither date pattern yields `none` rather than an
error. -/
theorem dateParts_ne_nil (s : Str) : dateParts s ≠ [] := by
  unfold dateParts
  intro h
  exact pySplit_ne_nil (dashSep s) s (List.map_eq_nil_iff.mp h)

theorem claim_C3 :
    (∀ s : Str, parse_dateE s = Except.ok (parse_date s)) ∧
    (∀ t : Str, recognizedDatePart t = false → _convert_date t = none) := by
  constructor
  · intro s
    by_cases h : (containsSub "–".data (pyStripSet "()*".data s)
        || containsSub "-".data (pyStripSet "()*".data s)) = true
    · rcases hp : dateParts (pyStripSet "()*".data s) with _ | ⟨a, rest⟩
      · exact absurd hp (dateParts_ne_nil _)
      · rcases rest with _ | ⟨b, rest2⟩
        · simp [parse_dateE, parse_date, h, hp, listIdxE, Bind.bind, Except.bind, pure,
            Except.pure]
        · have hlen : ¬ (rest2.length + 1 + 1 < 2) := by omega
          by_cases hpb : containsSub "present".data (lowerS b) = true <;>
            simp [parse_dateE, parse_date, h, hp, listIdxE, Bind.bind, Except.bind, pure,
              Except.pure, hpb, hlen]
    · simp [parse_dateE, parse_date, h, pure, Except.pure]
  · intro t h
    unfold recognizedDatePart at h
    simp only [_convert_date]
    rcases hm : matchMonthYear (pyStrip t) with _ | ⟨nm, yr⟩ <;> rw [hm] at h
    · show year4 (pyStrip t) = none
      rcases hy : year4 (pyStrip t) with _ | v
      · rfl
      · rw [hy] at h
        simp at h
    · have h1 : (month_map ((lowerS nm).take 3)).isSome = false := by
        have hh := h
        simp only [Bool.or_eq_false_iff] at hh
        exact hh.1
      have h2 : (year4 (pyStrip t)).isSome = false := by
        have hh := h
        simp only [Bool.or_eq_false_iff] at hh
        exact hh.2
      show (match month_map ((lowerS nm).take 3) with
            | some mm2 => some (yr ++ '-' :: mm2)
            | none => year4 (pyStrip t)) = none
      rcases hmm : month_map ((lowerS nm).take 3) with _ | mmv
      · rcases hy : year4 (pyStrip t) with _ | v
        · rfl
        · rw [hy] at h2
          simp at h2
      · rw [hmm] at h1
        simp at h1

/-- Witness for C3 at concrete inputs: a range input runs without
error, and an unrecognizable part converts to `none`. -/
theorem claim_C3_wit :
    parse_dateE "(*Jan 2019 – present*)".data
      = Except.ok (parse_date "(*Jan 2019 – present*)".data) ∧
    _convert_date "sometime".data = none :=
  ⟨claim_C3.1 "(*Jan 2019 – present*)".data, claim_C3.2 "sometime".data (by decide)⟩

/-- C4: a "Month Year" string whose month token carries a recognized
three-letter abbreviation (case-insensitive, per `month_map`) and whose
year is four digits is normalised by `_convert_date` to `YYYY-MM` with
the month number taken from the table. -/
theorem claim_C4 (m y mm : Str) (hm : m ≠ []) (hw : m.all isWordC = true)
    (hmm : month_map ((lowerS m).take 3) = some mm)
    (hy4 : y.length = 4) (hyd : y.all isDigitC = true) :
    _convert_date (m ++ ' ' :: y) = some (y ++ '-' :: mm) := by
  have hyne : y ≠ [] := by intro h; rw [h] at hy4; simp at hy4
  have hstrip : pyStrip (m ++ ' ' :: y) = m ++ ' ' :: y := by
    apply pyStrip_eq_self_of
    · rcases m with _ | ⟨c, t⟩
      · exact absurd rfl hm
      · rw [List.cons_append]
        apply dropWhile_eq_self_of_head
        exact isWordC_not_ws (by simp [List.all_cons] at hw; exact hw.1)
    · rcases hyr : y.reverse with _ | ⟨e, r⟩
      · exact absurd (by simpa using congrArg List.reverse hyr) hyne
      · have he : e ∈ y := by
          have : e ∈ y.reverse := by rw [hyr]; exact List.mem_cons_self e r
          simpa using this
        have hed : isDigitC e = true := by
          rw [List.all_eq_true] at hyd; exact hyd e he
        rw [List.reverse_append, List.reverse_cons, List.append_assoc, List.singleton_append,
          hyr, List.cons_append]
        apply dropWhile_eq_self_of_head
        exact isDigitC_not_ws hed
  have hword0 : isWordC ' ' = false := by decide
  have htake : (m ++ ' ' :: y).takeWhile isWordC = m := takeWhile_all_app ' ' y hw hword0
  have hme : m.isEmpty = false := by
    rcases m with _ | ⟨c, t⟩
    · exact absurd rfl hm
    · rfl
  have hky : (' ' :: y).takeWhile isWs = [' '] := by
    rcases y with _ | ⟨d, ys⟩
    · exact absurd rfl hyne
    · have hdw : isWs d = false :=
        isDigitC_not_ws (by simp [List.all_cons] at hyd; exact hyd.1)
      have hsp : isWs ' ' = true := by decide
      simp [List.takeWhile_cons, hsp, hdw]
  have hty : y.take 4 = y := by rw [← hy4, List.take_length]
  have hMY : matchMonthYear (m ++ ' ' :: y) = some (m, y) := by
    simp only [matchMonthYear, htake, hme, Bool.false_eq_true, if_false, List.drop_left, hky,
      List.length_cons, List.length_nil]
    norm_num
    refine ⟨⟨by omega, fun x hx => ?_⟩, by omega⟩
    exact (List.all_eq_true.mp hyd) x (List.mem_of_mem_take hx)
  unfold _convert_date
  rw [hstrip]
  show (match matchMonthYear (m ++ ' ' :: y) with
        | some (nm, yr) =>
          match month_map ((lowerS nm).take 3) with
          | some mm2 => some (yr ++ '-' :: mm2)
          | none => year4 (m ++ ' ' :: y)
        | none => year4 (m ++ ' ' :: y)) = some (y ++ '-' :: mm)
  rw [hMY]
  simp [hmm]

/-- Witness for C4: `"Sep 2020"` normalises to `"2020-09"`. -/
theorem claim_C4_wit :
    _convert_date ("Sep".data ++ ' ' :: "2020".data) = some ("2020".data ++ '-' :: "09".data) :=
  claim_C4 "Sep".data "2020".data "09".data (by decide) (by decide) (by decide)
    (by decide) (by decide)

/-- C5: whenever a date string (after stripping `()*`) contains a dash
and the second stripped part contains the token `present` in any letter
case, `parse_date` yields an open (null) end date and normalises the
first part as the start. -/
theorem claim_C5 (s0 : Str)
    (h1 : (containsSub "–".data (pyStripSet "()*".data s0)
           || containsSub "-".data (pyStripSet "()*".data s0)) = true)
    (h2 : containsSub "present".data
            (lowerS ((dateParts (pyStripSet "()*".data s0)).getD 1 [])) = true) :
    parse_date s0
      = (_convert_date ((dateParts (pyStripSet "()*".data s0)).getD 0 []), none) := by
  simp only [parse_date]
  rw [if_pos h1, h2, Bool.or_true]
  simp

/-- Witness for C5: `"(*Jan 2019 – Present*)"` yields a null end date and
the normalised first part as start. -/
theorem claim_C5_wit :
    parse_date "(*Jan 2019 – Present*)".data
      = (_convert_date ((dateParts (pyStripSet "()*".data "(*Jan 2019 – Present*)".data)).getD 0 []),
         none) :=
  claim_C5 "(*Jan 2019 – Present*)".data (by decide) (by decide)

/-! ## Claim C10 -/

theorem findSub_of_pre {pat s : Str} (h : pat.isPrefixOf s = true) (hne : s ≠ []) :
    findSub pat s = some 0 := by
  rcases s with _ | ⟨c, rest⟩
  · exact absurd rfl hne
  · simp [findSub, h]

/-- C10: a document whose text begins with `+++` but has no further
occurrence of `+++` is returned by the Front-Matter Splitter with empty
metadata and the body equal to the whole original text, delimiter
included. -/
theorem claim_C10 (content : Str) (h1 : "+++".data.isPrefixOf content = true)
    (h2 : containsSub "+++".data (content.drop 3) = false) :
    parse_front_matter content = ([], content) := by
  obtain ⟨r, hr⟩ := List.isPrefixOf_iff_prefix.mp h1
  subst hr
  have hdrop : ("+++".data ++ r).drop 3 = r := List.drop_left "+++".data r
  rw [hdrop] at h2
  have hfind : findSub "+++".data r = none := by
    rcases hf : findSub "+++".data r with _ | i
    · rfl
    · unfold containsSub at h2
      rw [hf] at h2
      simp at h2
  have h0 : findSub "+++".data ("+++".data ++ r) = some 0 :=
    findSub_of_pre (List.isPrefixOf_iff_prefix.mpr (List.prefix_append _ _)) (by simp)
  have hsplit : pySplitMax "+++".data 2 ("+++".data ++ r) = [[], r] := by
    unfold pySplitMax
    rw [h0]
    simp only [List.take_zero, Nat.zero_add]
    rw [List.drop_left]
    unfold pySplitMax
    rw [hfind]
  unfold parse_front_matter
  rw [if_pos h1, hsplit]
  simp

/-- Witness for C10: `"+++abc"` is returned whole with empty metadata. -/
theorem claim_C10_wit : parse_front_matter "+++abc".data = ([], "+++abc".data) :=
  claim_C10 "+++abc".data (by decide) (by decide)

/-! ## Claim C2 -/

theorem spanGo_spec (stop : Str → Nat → Bool) (s : Str) :
    ∀ fuel e, s.length - e < fuel → e ≤ s.length →
      e ≤ spanGo stop s fuel e ∧ spanGo stop s fuel e ≤ s.length ∧
      (spanGo stop s fuel e = s.length ∨ stop s (spanGo stop s fuel e) = true) ∧
      (∀ x, e ≤ x → x < spanGo stop s fuel e → stop s x = false) := by
  intro fuel
  induction fuel with
  | zero => intro e h; omega
  | succ n ih =>
    intro e hf he
    by_cases h1 : s.length ≤ e
    · have hgo : spanGo stop s (n + 1) e = s.length := by
        unfold spanGo
        rw [if_pos h1]
      rw [hgo]
      exact ⟨he, Nat.le_refl _, Or.inl rfl, fun x hx1 hx2 => by omega⟩
    · by_cases h2 : stop s e = true
      · have hgo : spanGo stop s (n + 1) e = e := by
          unfold spanGo
          rw [if_neg h1, if_pos h2]
        rw [hgo]
        exact ⟨Nat.le_refl _, by omega, Or.inr h2, fun x hx1 hx2 => by omega⟩
      · have hgo : spanGo stop s (n + 1) e = spanGo stop s n (e + 1) := by
          show (if s.length ≤ e then s.length
                else if stop s e = true then e else spanGo stop s n (e + 1))
              = spanGo stop s n (e + 1)
          rw [if_neg h1, if_neg h2]
        obtain ⟨ha, hb, hc, hd⟩ := ih (e + 1) (by omega) (by omega)
        rw [hgo]
        refine ⟨by omega, hb, hc, fun x hx1 hx2 => ?_⟩
        rcases Nat.eq_or_lt_of_le hx1 with heq | hlt
        · cases heq
          exact Bool.eq_false_iff.mpr h2
        · exact hd x hlt hx2

/-- C2 counterexample: for the Work-Experience extractor the section
span does not stop at a horizontal-rule marker; on
`"## Experience\nA\n---\nB"` the code takes `"A\n---\nB"` (content after
the rule included), while the claimed common contract
(`sectionSpanClaimed`, cutting at heading, rule or end) would take
`"A"`. -/
theorem claim_C2_cex :
    sectionSpan "Experience".data stopNoHr "## Experience\nA\n---\nB".data
      = some "A\n---\nB".data ∧
    sectionSpanClaimed "Experience".data "## Experience\nA\n---\nB".data
      = some "A".data ∧
    ("A\n---\nB".data : Str) ≠ "A".data := by
  refine ⟨by decide, by decide, by decide⟩

/-- C2 amended: the Skills span ends at the least position at or after
the span start where the next-heading lookahead or a `\n---` marker
occurs, or at end of document; the Work-Experience and Education spans
end at the least position where the next-heading lookahead occurs, or
at end of document — for those two a horizontal rule does not bound the
span (the rules are erased from the span afterwards instead). -/
theorem claim_C2 (s : Str) (g0 : Nat) (h : g0 ≤ s.length) :
    (g0 ≤ spanEnd stopHr s g0 ∧ spanEnd stopHr s g0 ≤ s.length ∧
      (spanEnd stopHr s g0 = s.length ∨ stopHr s (spanEnd stopHr s g0) = true) ∧
      ∀ x, g0 ≤ x → x < spanEnd stopHr s g0 → stopHr s x = false) ∧
    (g0 ≤ spanEnd stopNoHr s g0 ∧ spanEnd stopNoHr s g0 ≤ s.length ∧
      (spanEnd stopNoHr s g0 = s.length ∨ stopNoHr s (spanEnd stopNoHr s g0) = true) ∧
      ∀ x, g0 ≤ x → x < spanEnd stopNoHr s g0 → stopNoHr s x = false) :=
  ⟨spanGo_spec stopHr s (s.length + 1 - g0) g0 (by omega) h,
   spanGo_spec stopNoHr s (s.length + 1 - g0) g0 (by omega) h⟩

/-- Witness for C2 (amended) on `"A\n---\nB"` from position 0: the
Skills-style span end is the document end or a true stop. -/
theorem claim_C2_wit :
    spanEnd stopHr "A\n---\nB".data 0 = "A\n---\nB".data.length ∨
      stopHr "A\n---\nB".data (spanEnd stopHr "A\n---\nB".data 0) = true :=
  (claim_C2 "A\n---\nB".data 0 (by decide)).1.2.2.1

/-! ## Claim C1 -/

/-- C1: a job block yields a `WorkEntry` exactly when all three
required pieces are present — at least three lines (so a position line
exists), a bold organization line matching at line 1, and a parseable
date line matching at line 2 — and a block failing the test contributes
nothing to the work list built by `filterMap`. -/
theorem claim_C1 (blk : Str) :
    ((parseJobSection blk).isSome = goodWorkBlock blk) ∧
    (goodWorkBlock blk = false → ∀ pre post : List Str,
      (pre ++ blk :: post).filterMap parseJobSection
        = (pre ++ post).filterMap parseJobSection) := by
  have hmain : (parseJobSection blk).isSome = goodWorkBlock blk := by
    unfold parseJobSection goodWorkBlock
    by_cases h0 : (pyStrip blk).isEmpty = true
    · have hb : pyStrip blk = [] := by
        rcases hsb : pyStrip blk with _ | ⟨c, t⟩
        · rfl
        · rw [hsb] at h0; simp at h0
      rw [if_pos h0, hb]
      decide
    · rw [if_neg h0]
      rcases Nat.lt_or_ge (pySplit "\n".data (pyStrip blk)).length 3 with h1 | h1
      · rw [if_pos h1]
        have h3 : decide (3 ≤ (pySplit "\n".data (pyStrip blk)).length) = false := by
          rw [decide_eq_false_iff_not]
          omega
        rw [h3]
        simp
      · rw [if_neg (by omega : ¬ (pySplit "\n".data (pyStrip blk)).length < 3)]
        have h3 : decide (3 ≤ (pySplit "\n".data (pyStrip blk)).length) = true := by
          rw [decide_eq_true_eq]
          exact h1
        rw [h3]
        rcases hc : companyMatch ((pySplit "\n".data (pyStrip blk)).getD 1 []) with _ | ⟨comp, loc⟩
        · simp
        · rcases hd : datesMatch ((pySplit "\n".data (pyStrip blk)).getD 2 []) with _ | dates
          · simp
          · simp
  refine ⟨hmain, fun hbad pre post => ?_⟩
  have hnone : parseJobSection blk = none := by
    rcases hp : parseJobSection blk with _ | w
    · rfl
    · rw [hp] at hmain
      rw [hbad] at hmain
      simp at hmain
  simp [List.filterMap_append, List.filterMap_cons, hnone]

/-- Witness for C1: a one-line block fails the test and is dropped from
the surrounding list. -/
theorem claim_C1_wit :
    (parseJobSection "only".data).isSome = goodWorkBlock "only".data ∧
    List.filterMap parseJobSection ([] ++ "only".data :: [])
      = List.filterMap parseJobSection ([] ++ []) :=
  ⟨(claim_C1 "only".data).1, (claim_C1 "only".data).2 (by decide) [] []⟩

/-! ## Claims C6 and C9 -/

/-- C6 counterexample: the configuration `cfgTwoLinkedIn` declares a
profile with network `"LinkedIn"` (in fact two of them) and contact
parsing finds a LinkedIn URL, so the claim's premise holds, yet the
assembled profile list contains two LinkedIn entries, not exactly
one. -/
theorem claim_C6_cex :
    ((parse_hugo_config (some cfgTwoLinkedIn)).profiles.any
        (fun p => decide (p.network = some "LinkedIn".data))) = true ∧
    optTruthy (parse_contact_info (some contactWithLinkedIn) none).linkedin = true ∧
    countNet "LinkedIn".data
      (assembledProfiles (parse_hugo_config (some cfgTwoLinkedIn)).profiles
        (parse_contact_info (some contactWithLinkedIn) none).linkedin) = 2 :=
  ⟨by decide, by decide, by decide⟩

/-- C6 amended: when the configuration already declares at least one
profile whose network equals `"LinkedIn"` (case-sensitive) and contact
parsing found a LinkedIn URL, the assembled list is exactly the
configuration list — the contact-derived profile is not appended — so
the number of LinkedIn entries equals the number declared in
configuration (exactly one precisely when the configuration declares
exactly one); when the configuration has no LinkedIn entry, the
contact-derived profile is appended at the end. -/
theorem claim_C6 (ps : List Profile) (lk : Option Str) (htr : optTruthy lk = true) :
    (ps.any (fun p => decide (p.network = some "LinkedIn".data)) = true →
      assembledProfiles ps lk = ps ∧
      countNet "LinkedIn".data (assembledProfiles ps lk) = countNet "LinkedIn".data ps) ∧
    (ps.any (fun p => decide (p.network = some "LinkedIn".data)) = false →
      assembledProfiles ps lk = ps ++ [mkLinkedInProfile (lk.getD [])]) := by
  constructor
  · intro hany
    have heq : assembledProfiles ps lk = ps := by
      unfold assembledProfiles
      rw [if_pos htr, if_pos hany]
    exact ⟨heq, by rw [heq]⟩
  · intro hany
    unfold assembledProfiles
    rw [if_pos htr, if_neg (by simp [hany])]

/-- Witness for C6 (amended): with one configured LinkedIn profile and
a discovered URL, the assembled list is the configuration list. -/
theorem claim_C6_wit :
    assembledProfiles [⟨some "LinkedIn".data, none, some "u".data⟩] (some "x".data)
      = [⟨some "LinkedIn".data, none, some "u".data⟩] :=
  ((claim_C6 [⟨some "LinkedIn".data, none, some "u".data⟩] (some "x".data)
      (by decide)).1 (by decide)).1

/-- C9: duplicate suppression applies only to the contact-derived
profile: when the configuration text splits into two social blocks each
declaring the same network name, both profiles appear in
`parse_hugo_config`'s list with equal network fields, and the
configuration profiles always form a prefix of the assembled list, so
the final list can carry duplicate network names from configuration
alone. -/
theorem claim_C9 (content A B C n : Str)
    (hsplit : pySplit "[[params.social]]".data content = [A, B, C])
    (hB : searchKeyVal "name".data B = some n)
    (hC : searchKeyVal "name".data C = some n) :
    (parse_hugo_config (some content)).profiles
      = [{ network := some n, username := none, url := searchKeyVal "url".data B },
         { network := some n, username := none, url := searchKeyVal "url".data C }] ∧
    ∀ lk, ∃ rest, assembledProfiles (parse_hugo_config (some content)).profiles lk
      = (parse_hugo_config (some content)).profiles ++ rest := by
  constructor
  · show ((pySplit "[[params.social]]".data content).drop 1).filterMap socialProfile = _
    rw [hsplit]
    have hsbB : socialProfile B = some (Profile.mk (some n) none (searchKeyVal "url".data B)) := by
      unfold socialProfile
      rw [hB]
      simp
    have hsbC : socialProfile C = some (Profile.mk (some n) none (searchKeyVal "url".data C)) := by
      unfold socialProfile
      rw [hC]
      simp
    simp [List.filterMap_cons, hsbB, hsbC]
  · intro lk
    unfold assembledProfiles
    by_cases h1 : optTruthy lk = true
    · rw [if_pos h1]
      by_cases h2 : (parse_hugo_config (some content)).profiles.any
          (fun p => decide (p.network = some "LinkedIn".data)) = true
      · rw [if_pos h2]
        exact ⟨[], (List.append_nil _).symm⟩
      · rw [if_neg (by simp [h2])]
        exact ⟨[mkLinkedInProfile (lk.getD [])], rfl⟩
    · rw [if_neg h1]
      exact ⟨[], (List.append_nil _).symm⟩

/-- Witness for C9 at the concrete two-block configuration: both
LinkedIn profiles appear in the parsed profile list. -/
theorem claim_C9_wit :
    (parse_hugo_config (some cfgTwoLinkedIn)).profiles
      = [{ network := some "LinkedIn".data, username := none,
           url := searchKeyVal "url".data socialBlockA },
         { network := some "LinkedIn".data, username := none,
           url := searchKeyVal "url".data socialBlockB }] :=
  (claim_C9 cfgTwoLinkedIn [] socialBlockA socialBlockB "LinkedIn".data
    (by decide) (by decide) (by decide)).1

/-! ## Claims C7 and C8 -/

/-- C7: for every combination of input documents — including entirely
missing ones — the record produced by `build_resume` carries all ten
top-level list fields (work, education, skills, projects, volunteer,
awards, publications, languages, interests, references), each a JSON
array, together with the fixed `meta` object holding `version` and
`canonical`. -/
theorem claim_C7 (inp : Inputs) :
    (∃ l, objLookup "work".data (resumeToJ (build_resume inp initResumeData))
        = some (JVal.jarr l)) ∧
    (∃ l, objLookup "education".data (resumeToJ (build_resume inp initResumeData))
        = some (JVal.jarr l)) ∧
    (∃ l, objLookup "skills".data (resumeToJ (build_resume inp initResumeData))
        = some (JVal.jarr l)) ∧
    (∃ l, objLookup "projects".data (resumeToJ (build_resume inp initResumeData))
        = some (JVal.jarr l)) ∧
    (∃ l, objLookup "volunteer".data (resumeToJ (build_resume inp initResumeData))
        = some (JVal.jarr l)) ∧
    (∃ l, objLookup "awards".data (resumeToJ (build_resume inp initResumeData))
        = some (JVal.jarr l)) ∧
    (∃ l, objLookup "publications".data (resumeToJ (build_resume inp initResumeData))
        = some (JVal.jarr l)) ∧
    (∃ l, objLookup "languages".data (resumeToJ (build_resume inp initResumeData))
        = some (JVal.jarr l)) ∧
    (∃ l, objLookup "interests".data (resumeToJ (build_resume inp initResumeData))
        = some (JVal.jarr l)) ∧
    (∃ l, objLookup "references".data (resumeToJ (build_resume inp initResumeData))
        = some (JVal.jarr l)) ∧
    objLookup "meta".data (resumeToJ (build_resume inp initResumeData)) = some metaInit ∧
    objLookup "version".data metaInit = some (JVal.jstr "v1.0.0".data) ∧
    objLookup "canonical".data metaInit
      = some (JVal.jstr "https://github.com/jsonresume/resume-schema/blob/v1.0.0/schema.json".data) := by
  obtain ⟨h, c, o, a, p⟩ := inp
  cases a <;>
    exact ⟨⟨_, rfl⟩, ⟨_, rfl⟩, ⟨_, rfl⟩, ⟨_, rfl⟩, ⟨_, rfl⟩, ⟨_, rfl⟩, ⟨_, rfl⟩, ⟨_, rfl⟩,
      ⟨_, rfl⟩, ⟨_, rfl⟩, rfl, rfl, rfl⟩

/-- C8: the pipeline is a deterministic function of the input file
contents — running `build_resume` a second time over the state left by
a first run (same inputs) changes nothing, so the serialized output
bytes of the two runs are identical. -/
theorem claim_C8 (inp : Inputs) (st : ResumeData) :
    save_json (build_resume inp (build_resume inp st)) = save_json (build_resume inp st) := by
  obtain ⟨h, c, o, a, p⟩ := inp
  cases a <;> rfl

end MdJson
